import Mathlib

/-!
Verification development for the `BossDBUpload` class of
`element_volume/export/bossdb.py` (element-zstack repository).

The Python class is shallowly embedded below.  External collaborators
(the BossDB remote, the filesystem listing, image decoding, the cutout
write endpoint) are modelled as oracles supplied to the embedded
functions; everything the class itself computes is translated directly
from the source.
-/

/-- Python exception classes that the source distinguishes.
`httpError` is `requests.HTTPError` carrying an HTTP status code,
`dataJointError` is `datajoint.errors.DataJointError`,
`attributeError` is Python's built-in `AttributeError` (raised when an
instance attribute is read before it has been assigned). -/
inductive PyErr
  | httpError (status : Nat)
  | dataJointError (msg : String)
  | attributeError (attr : String)
  | otherError (tag : String)
deriving DecidableEq, Repr

/-- Whether an exception is an instance of `requests.HTTPError` —
this is exactly the class matched by `except HTTPError:` at line 225. -/
def PyErr.isHTTPError : PyErr → Bool
  | .httpError _ => true
  | _ => false

/-- Whether an exception is a "not found" HTTP error (status 404).
The spec's "not found class of error". -/
def PyErr.isNotFoundHTTP : PyErr → Bool
  | .httpError s => s == 404
  | _ => false

/-! ## ndarray model

`np.ndarray` is modelled with explicit shape, element strides, an
offset into a linear buffer, and the buffer of element values.  A
multi-index addresses element `offset + Σ idx_k * strides_k` of the
buffer, exactly as in numpy's strided memory model. -/

/-- Row-major (C-order) element strides for a shape:
stride of axis k is the product of the dimensions after k. -/
def rowMajorStrides : List Nat → List Int
  | [] => []
  | _ :: rest => ((rest.prod : Nat) : Int) :: rowMajorStrides rest

structure NDArray where
  shape : List Nat
  strides : List Int
  offset : Int
  buffer : List Nat
  dtype : String
deriving DecidableEq, Repr

/-- The `C_CONTIGUOUS` flag (line 113): the strides are the row-major
strides of the shape. -/
def NDArray.c_contiguous (a : NDArray) : Bool :=
  decide (a.strides = rowMajorStrides a.shape)

/-- Linear position of a multi-index relative to the array offset:
`Σ idx_k * strides_k`. -/
def flatIndex : List Nat → List Int → Int
  | i :: is, s :: ss => (i : Int) * s + flatIndex is ss
  | _, _ => 0

/-- Element of the array at a multi-index (0 when out of the buffer). -/
def NDArray.item (a : NDArray) (idx : List Nat) : Nat :=
  let k := a.offset + flatIndex idx a.strides
  if h : 0 ≤ k ∧ k.toNat < a.buffer.length then a.buffer.get ⟨k.toNat, h.2⟩ else 0

/-- All multi-indices of a shape, enumerated in row-major order. -/
def allIndices : List Nat → List (List Nat)
  | [] => [[]]
  | d :: rest => (List.range d).flatMap (fun i => (allIndices rest).map (i :: ·))

/-- Row-major rank of a multi-index within a shape (the position of
the index in the row-major enumeration `allIndices`). -/
def rmRank : List Nat → List Nat → Nat
  | _ :: rest, i :: is => i * rest.prod + rmRank rest is
  | _, _ => 0

/-- Model of `np.ascontiguousarray`: materialize the logical content
into a fresh row-major buffer. -/
def ascontiguousarray (a : NDArray) : NDArray :=
  { shape := a.shape
    strides := rowMajorStrides a.shape
    offset := 0
    buffer := (allIndices a.shape).map a.item
    dtype := a.dtype }

/-- Lines 113-114 of `upload`:
`if not stack.flags["C_CONTIGUOUS"]: stack = np.ascontiguousarray(stack)`. -/
def contigAdjust (a : NDArray) : NDArray :=
  if a.c_contiguous then a else ascontiguousarray a

/-- Basic slice `a[i:j]` along the first axis (line 108): a view with
the first dimension clipped to `[min i d, min j d)`, the offset moved
by `i` strides, and the strides unchanged. -/
def arraySlice (a : NDArray) (i j : Nat) : NDArray :=
  match a.shape, a.strides with
  | d :: rest, s :: srest =>
    { shape := (min j d - min i d) :: rest
      strides := s :: srest
      offset := a.offset + ((min i d : Nat) : Int) * s
      buffer := a.buffer
      dtype := a.dtype }
  | _, _ => a

/-- A fresh C-contiguous array over a buffer. -/
def mkNDArray (shape : List Nat) (buffer : List Nat) (dtype : String) : NDArray :=
  { shape := shape, strides := rowMajorStrides shape, offset := 0
    buffer := buffer, dtype := dtype }

/-! ## BossDB resource descriptors (`intern.resource.boss.resource`)

Only the constructor arguments that the source passes are modelled. -/

/-- A remote project confirmed by the BossDB service; the source only
reads its `name` (lines 211, 219). -/
structure Project where
  name : String
deriving DecidableEq, Repr

structure CollectionResource where
  name : String
  description : String
deriving DecidableEq, Repr

structure CoordinateFrameResource where
  name : String
  description : String
  x_start : Nat
  x_stop : Nat
  y_start : Nat
  y_stop : Nat
  z_start : Nat
  z_stop : Nat
  x_voxel_size : Nat
  y_voxel_size : Nat
  z_voxel_size : Nat
deriving DecidableEq, Repr

structure ExperimentResource where
  name : String
  collection_name : String
  coord_frame : String
  description : String
deriving DecidableEq, Repr

/-- Field `ctype` is the constructor argument written `type="image"` in the
source (`type` is reserved here).  `datatype` is `Option String`
because the session's `_dtype` may be Python `None`.  `sources` is
`none` when the argument is not passed at all (line 178-185) and
`some l` when passed (lines 186-194, 219). -/
structure ChannelResource where
  name : String
  collection_name : String
  experiment_name : String
  ctype : String
  description : String
  datatype : Option String
  sources : Option (List String)
deriving DecidableEq, Repr

/-- The descriptor argument of `remote.get_project` / `create_project`. -/
inductive Resource
  | collection (c : CollectionResource)
  | coordFrame (cf : CoordinateFrameResource)
  | experiment (e : ExperimentResource)
  | channel (ch : ChannelResource)
deriving DecidableEq, Repr

def Resource.name : Resource → String
  | .collection c => c.name
  | .coordFrame cf => cf.name
  | .experiment e => e.name
  | .channel ch => ch.name

/-- One call issued to the remote store. -/
inductive RemoteCall
  | get (obj : Resource)
  | create (obj : Resource)
deriving DecidableEq, Repr

deriving instance DecidableEq for Except

def RemoteCall.isGet : RemoteCall → Bool
  | .get _ => true
  | _ => false

/-- The `BossRemote` collaborator: `get_project` and `create_project`,
each either returning a confirmed project or raising. -/
structure Remote where
  get_project : Resource → Except PyErr Project
  create_project : Resource → Except PyErr Project

/-- Embedding of `BossDBUpload._get_or_create` (lines 222-228):

```
try:    result = remote.get_project(obj)
except HTTPError:
    result = remote.create_project(obj)
return result
```

Returns the trace of remote calls made, and the result: the fetched
project; on an `HTTPError` from the fetch, whatever `create_project`
returns; any other fetch exception propagates. -/
def get_or_create (remote : Remote) (obj : Resource) :
    List RemoteCall × Except PyErr Project :=
  match remote.get_project obj with
  | .ok r => ([.get obj], .ok r)
  | .error e =>
    if e.isHTTPError then ([.get obj, .create obj], remote.create_project obj)
    else ([.get obj], .error e)

/-! ## The upload session -/

/-- Constructor arguments of `BossDBUpload` together with the URI
segments produced by `_parse_bossdb_uri(url)`.  `voxel_size` and
`shape_zyx` are ZYX triples of integers (the `tuple(float(i) ...)` /
`tuple(int(i) ...)` conversions at lines 48-50 do not change the
values). -/
structure InitArgs where
  collection : String
  experiment : String
  channel : String
  data_dir : String
  voxel_size : Nat × Nat × Nat
  voxel_units : String
  shape_zyx : Nat × Nat × Nat
  resolution : Nat
  raw_data : Option NDArray
  data_extension : String
  upload_increment : Nat
  retry_max : Nat
  dtype : Option String
  overwrite : Bool

/-- Line 57. -/
def sessionDescription : String := "Uploaded via DataJoint"

/-- The five default descriptors built by the `resources` property
(lines 150-196). -/
structure ResourcesSet where
  collection : CollectionResource
  coord_frame : CoordinateFrameResource
  experiment : ExperimentResource
  channel_resource : ChannelResource
  channel : ChannelResource
deriving DecidableEq, Repr

/-- The `resources` property (lines 150-196).

`dtypeAttr` is the state of the instance attribute `self._dtype`:
`none` when the attribute has not been assigned yet (reading it then
raises `AttributeError`, which is what line 184 `datatype=self._dtype`
does), `some dt` when it holds the value `dt : Option String`
(`self._dtype` itself may be Python `None`, hence the inner Option). -/
def resourcesProperty (a : InitArgs) (dtypeAttr : Option (Option String)) :
    Except PyErr ResourcesSet :=
  match dtypeAttr with
  | none => .error (.attributeError ("_dtype"))
  | some dt =>
    let coord_name := "CF_" ++ a.collection ++ "_" ++ a.experiment
    .ok
      { collection := { name := a.collection, description := sessionDescription }
        coord_frame :=
          { name := coord_name
            description := sessionDescription
            x_start := 0
            x_stop := a.shape_zyx.2.2
            y_start := 0
            y_stop := a.shape_zyx.2.1
            z_start := 0
            z_stop := a.shape_zyx.1
            x_voxel_size := a.voxel_size.2.2
            y_voxel_size := a.voxel_size.2.1
            z_voxel_size := a.voxel_size.1 }
        experiment :=
          { name := a.experiment
            collection_name := a.collection
            coord_frame := coord_name
            description := sessionDescription }
        channel_resource :=
          { name := a.channel
            collection_name := a.collection
            experiment_name := a.experiment
            ctype := "image"
            description := sessionDescription
            datatype := dt
            sources := none }
        channel :=
          { name := a.channel
            collection_name := a.collection
            experiment_name := a.experiment
            ctype := "image"
            description := sessionDescription
            datatype := dt
            sources := some [] } }

/-- Embedding of `BossDBUpload.try_create_new` (lines 198-220), given the already
built `resources` dictionary.  Returns the trace of remote calls and
the outcome (an exception from any step propagates and stops the
sequence). -/
def try_create_new (remote : Remote) (rs : ResourcesSet) :
    List RemoteCall × Except PyErr Unit :=
  let step1 := get_or_create remote (.collection rs.collection)
  match step1.2 with
  | .error e => (step1.1, .error e)
  | .ok _ =>
    let step2 := get_or_create remote (.coordFrame rs.coord_frame)
    match step2.2 with
    | .error e => (step1.1 ++ step2.1, .error e)
    | .ok true_coord_frame =>
      let experiment := { rs.experiment with coord_frame := true_coord_frame.name }
      let step3 := get_or_create remote (.experiment experiment)
      match step3.2 with
      | .error e => (step1.1 ++ step2.1 ++ step3.1, .error e)
      | .ok _ =>
        let step4 := get_or_create remote (.channel rs.channel_resource)
        match step4.2 with
        | .error e => (step1.1 ++ step2.1 ++ step3.1 ++ step4.1, .error e)
        | .ok channel_resource =>
          let channel := { rs.channel with sources := some [channel_resource.name] }
          let step5 := get_or_create remote (.channel channel)
          (step1.1 ++ step2.1 ++ step3.1 ++ step4.1 ++ step5.1,
           step5.2.map (fun _ => ()))

/-- The method `try_create_new` as invoked on the instance: its first statement
`self.resources["collection"]` evaluates the `resources` property,
which reads `self._dtype` (line 184) and therefore raises
`AttributeError` when that attribute has not been assigned yet. -/
def try_create_new_method (remote : Remote) (a : InitArgs)
    (dtypeAttr : Option (Option String)) : List RemoteCall × Except PyErr Unit :=
  match resourcesProperty a dtypeAttr with
  | .error e => ([], .error e)
  | .ok rs => try_create_new remote rs

/-- Glob-pattern match for `"*" + data_extension` against a filename:
the filename ends with the extension suffix. -/
def matchesExtension (f data_extension : String) : Bool :=
  data_extension.data.isSuffixOf f.data

def insertSorted (x : String) : List String → List String
  | [] => [x]
  | y :: ys => if x ≤ y then x :: y :: ys else y :: insertSorted x ys

/-- Python's `sorted` on strings (insertion sort; the order itself is
not load-bearing for any claim). -/
def sortedList : List String → List String
  | [] => []
  | x :: xs => insertSorted x (sortedList xs)

/-- Embedding of `BossDBUpload.fetch_images` (lines 77-84): sort the directory
listing filtered by the glob pattern `"*" + data_extension` and fail
with a `DataJointError` when the filtered listing is empty. -/
def fetch_images (dirFiles : List String) (data_dir data_extension : String) :
    Except PyErr (List String) :=
  let image_paths := sortedList (dirFiles.filter (fun f => matchesExtension f data_extension))
  if image_paths.isEmpty then
    .error (.dataJointError
      ("No files found in the specified directory " ++ data_dir ++ "/*"
        ++ data_extension ++ "."))
  else .ok image_paths

/-- The attributes `__init__` assigns in its last block (lines 71-75). -/
structure InitOk where
  image_paths : Option (List String)
  dtype : Option String
deriving DecidableEq, Repr

/-- Remote side effects performed during `__init__`:
the calls issued by `try_create_new` and whether it was invoked. -/
structure InitEffects where
  provision_trace : List RemoteCall
  provision_called : Bool
deriving DecidableEq, Repr

inductive InitOutcome
  | earlyExit
  | ok (st : InitOk)
  | raised (e : PyErr)
deriving DecidableEq, Repr

/-- Embedding of `BossDBUpload.__init__` (lines 24-75) after the plain attribute
assignments.  `urlExists` is the value of `BossDBInterface(url).exists`
(line 60); `dirFiles` is the directory listing consumed by
`fetch_images`.

Order of the source: (1) overwrite gate, lines 61-66, returns early;
(2) `if not self.url_exists: self.try_create_new()`, lines 68-69 — at
this point `self._dtype` has not been assigned (it is assigned at
lines 73/75), so the attribute state passed on is `none`;
(3) the raw-data/file-sequence branch, lines 71-75. -/
def initBossDBUpload (remote : Remote) (urlExists : Bool)
    (dirFiles : List String) (a : InitArgs) : InitEffects × InitOutcome :=
  if !a.overwrite && urlExists then
    ({ provision_trace := [], provision_called := false }, .earlyExit)
  else
    let pr : List RemoteCall × Except PyErr Unit :=
      if !urlExists then try_create_new_method remote a none else ([], .ok ())
    match pr.2 with
    | .error e =>
      ({ provision_trace := pr.1, provision_called := !urlExists }, .raised e)
    | .ok _ =>
      match a.raw_data with
      | none =>
        match fetch_images dirFiles a.data_dir a.data_extension with
        | .error e =>
          ({ provision_trace := pr.1, provision_called := !urlExists }, .raised e)
        | .ok paths =>
          ({ provision_trace := pr.1, provision_called := !urlExists },
           .ok { image_paths := some paths, dtype := a.dtype })
      | some raw =>
        ({ provision_trace := pr.1, provision_called := !urlExists },
         .ok { image_paths := none
               dtype := match a.dtype with
                        | some d => some d
                        | none => some raw.dtype })

/-! ## The upload loop -/

/-- Iteration worker for Python `range(start, stop, step)`; the fuel
argument only bounds the recursion depth (every call keeps
`stop - start ≤ fuel`, and each iteration advances `start` by
`step ≥ 1`), so it never cuts the iteration short. -/
def rangeStepGo (stop step : Nat) : Nat → Nat → List Nat
  | 0, _ => []
  | f + 1, start =>
    if start < stop ∧ 0 < step then start :: rangeStepGo stop step f (start + step)
    else []

/-- Python `range(start, stop, step)` for a non-negative step
(line 103; `step = 0` raises in Python and yields `[]` here — all
claims assume a positive increment). -/
def rangeStep (stop step start : Nat) : List Nat :=
  rangeStepGo stop step (stop - start) start

/-- One cutout write attempt as issued at lines 122-126:
`self.dataset[i : i + stack_shape[0], 0 : stack_shape[1], 0 : stack_shape[2]] = stack`. -/
structure WriteEvent where
  zStart : Nat
  zEnd : Nat
  yEnd : Nat
  xEnd : Nat
  stack : NDArray
deriving DecidableEq, Repr

def mkEvent (i : Nat) (stack : NDArray) : WriteEvent :=
  { zStart := i
    zEnd := i + stack.shape.getD 0 0
    yEnd := stack.shape.getD 1 0
    xEnd := stack.shape.getD 2 0
    stack := stack }

/-- Iteration worker for the retry loop; the fuel argument only bounds
the recursion depth (every call keeps `retryMax + 1 - attempt ≤ fuel`:
the loop retries only while `attempt + 1 ≤ retryMax`), so the fuel-0
fallback is never reached from `slabLoop`. -/
def slabLoopGo (writeRes : Nat → Option PyErr) (retryMax : Nat) (ev : WriteEvent) :
    Nat → Nat → List WriteEvent × Option PyErr
  | fuel, attempt =>
    match writeRes attempt with
    | none => ([ev], none)
    | some e =>
      if retryMax < attempt + 1 then ([ev], some e)
      else
        match fuel with
        | 0 => ([ev], some e)
        | f + 1 =>
          let r := slabLoopGo writeRes retryMax ev f (attempt + 1)
          (ev :: r.1, r.2)

/-- The `while True` retry loop of `upload` (lines 118-136), starting
at a given attempt index (`retry_count = attempt` on entry of the
iteration; the source starts with `retry_count = 0`).
`writeRes attempt` is the outcome of the attempt-th cutout write:
`none` = succeeded, `some e` = raised `e`.  Returns the write events
issued (one per attempt, always of the same already-prepared slab) and
`none` on `break` or `some e` for `raise e`. -/
def slabLoop (writeRes : Nat → Option PyErr) (retryMax : Nat) (ev : WriteEvent)
    (attempt : Nat) : List WriteEvent × Option PyErr :=
  slabLoopGo writeRes retryMax ev (retryMax + 1 - attempt) attempt

/-- The body of `BossDBUpload.upload` (lines 101-136) over an explicit
list of slab starts.  `source i z_limit` produces the slab for
`[i, z_limit)` (line 107-111: `raw_data[i:z_limit]` or
`_np_from_images(i, z_limit)`); `writeRes i attempt` is the outcome of
the attempt-th write of the slab starting at `i`.  The `tqdm` progress
wrapper is the identity on the iterated values. -/
def uploadLoop (source : Nat → Nat → NDArray) (writeRes : Nat → Nat → Option PyErr)
    (inc retryMax zMax : Nat) : List Nat → List WriteEvent × Option PyErr
  | [] => ([], none)
  | i :: rest =>
    let z_limit := min (i + inc) zMax
    let stack := contigAdjust (source i z_limit)
    let slab := slabLoop (writeRes i) retryMax (mkEvent i stack) 0
    match slab.2 with
    | some e => (slab.1, some e)
    | none =>
      let r := uploadLoop source writeRes inc retryMax zMax rest
      (slab.1 ++ r.1, r.2)

/-- Embedding of `BossDBUpload.upload`: iterate over `range(0, z_max, upload_increment)`
with `z_max = shape_zyx[0]` (lines 102-103). -/
def uploadMethod (source : Nat → Nat → NDArray) (writeRes : Nat → Nat → Option PyErr)
    (inc retryMax zMax : Nat) : List WriteEvent × Option PyErr :=
  uploadLoop source writeRes inc retryMax zMax (rangeStep zMax inc 0)

/-- The transfer plan: each slab start paired with its end
`min(zStart + increment, depth)`. -/
def slabList (depth inc : Nat) : List (Nat × Nat) :=
  (rangeStep depth inc 0).map (fun i => (i, min (i + inc) depth))

inductive SessionOutcome
  | earlyExit
  | completed
  | raised (e : PyErr)
deriving DecidableEq, Repr

/-- A whole session: construct `BossDBUpload`, and call `upload` when
construction succeeded ordinarily (the intended client protocol; after
the early exit or an exception no upload happens).  For a raw-data
session the volume source is `raw_data[i:z_limit]`; for a
file-sequence session the decode-and-stack of `_np_from_images` is the
external collaborator `fileSource`. -/
def runSession (remote : Remote) (urlExists : Bool) (dirFiles : List String)
    (a : InitArgs) (fileSource : Nat → Nat → NDArray)
    (writeRes : Nat → Nat → Option PyErr) :
    InitEffects × List WriteEvent × SessionOutcome :=
  match initBossDBUpload remote urlExists dirFiles a with
  | (eff, .earlyExit) => (eff, [], .earlyExit)
  | (eff, .raised e) => (eff, [], .raised e)
  | (eff, .ok _st) =>
    let source : Nat → Nat → NDArray :=
      match a.raw_data with
      | some raw => fun i z => arraySlice raw i z
      | none => fileSource
    let r := uploadMethod source writeRes a.upload_increment a.retry_max a.shape_zyx.1
    (eff, r.1, match r.2 with | none => .completed | some e => .raised e)

/-! ## Concrete fixtures (remotes, sessions, writers) for evaluating
the embedded operations at specific inputs -/

/-- A remote on which every fetch fails with HTTP 404 and every create
succeeds, confirming the requested name. -/
def remote404 : Remote :=
  { get_project := fun _ => .error (.httpError 404)
    create_project := fun o => .ok { name := o.name } }

/-- A remote on which every fetch fails with HTTP 500 (a server error,
not a "not found" condition). -/
def remote500 : Remote :=
  { get_project := fun _ => .error (.httpError 500)
    create_project := fun o => .ok { name := o.name } }

/-- A remote on which every fetch fails with a non-HTTP exception. -/
def remoteOther : Remote :=
  { get_project := fun _ => .error (.otherError ("boom"))
    create_project := fun o => .ok { name := o.name } }

def objColl : Resource :=
  .collection { name := "col", description := sessionDescription }

def objColl2 : Resource :=
  .collection { name := "col2", description := sessionDescription }

def rawFix : NDArray := mkNDArray [4, 2, 2] (List.range 16) "uint8"

def tinyFix : NDArray := mkNDArray [1, 1, 1] [7] "uint8"

/-- A non-contiguous 2x2 view (column-major strides). -/
def ncFix : NDArray :=
  { shape := [2, 2], strides := [1, 2], offset := 0, buffer := [1, 2, 3, 4]
    dtype := "uint8" }

def srcFix : Nat → Nat → NDArray := fun _ _ => tinyFix

def wrAllOk : Nat → Nat → Option PyErr := fun _ _ => none

/-- Writer for which the slab at 0 succeeds immediately and every
other slab always fails. -/
def wrC3 : Nat → Nat → Option PyErr :=
  fun z _ => if z = 0 then none else some (.httpError 503)

/-- Writer for which the slab at 0 fails once and then succeeds. -/
def wrC7 : Nat → Nat → Option PyErr :=
  fun z a => if z = 0 && a = 0 then some (.httpError 400) else none

def argsBase : InitArgs :=
  { collection := "col", experiment := "exp", channel := "chan"
    data_dir := "/data", voxel_size := (1, 1, 1), voxel_units := "um"
    shape_zyx := (4, 2, 2), resolution := 0, raw_data := none
    data_extension := ".tif", upload_increment := 16, retry_max := 3
    dtype := none, overwrite := false }

/-- File-sequence session, empty listing, destination exists, no overwrite. -/
def argsC2cex : InitArgs := argsBase

/-- File-sequence session, empty listing, destination exists, overwrite. -/
def argsC2w : InitArgs := { argsBase with overwrite := true }

/-- Raw-data session without overwrite (exercises the gate). -/
def argsGate : InitArgs := { argsBase with raw_data := some rawFix }

/-- Raw-data session with overwrite requested. -/
def argsOw : InitArgs :=
  { argsBase with raw_data := some rawFix, overwrite := true, dtype := some "uint8" }

/-- Raw-data session with an explicit dtype, destination absent. -/
def argsC6 : InitArgs :=
  { argsBase with raw_data := some rawFix, dtype := some "uint64" }

/-- Session used for the provisioning-order witness. -/
def argsC8 : InitArgs :=
  { argsBase with raw_data := some rawFix, dtype := some "uint8" }

/-- The value of the `resources` property for `argsC8` once `_dtype`
holds `"uint8"`. -/
def rsFix : ResourcesSet :=
  { collection := { name := "col", description := sessionDescription }
    coord_frame :=
      { name := "CF_col_exp", description := sessionDescription
        x_start := 0, x_stop := 2, y_start := 0, y_stop := 2
        z_start := 0, z_stop := 4
        x_voxel_size := 1, y_voxel_size := 1, z_voxel_size := 1 }
    experiment :=
      { name := "exp", collection_name := "col", coord_frame := "CF_col_exp"
        description := sessionDescription }
    channel_resource :=
      { name := "chan", collection_name := "col", experiment_name := "exp"
        ctype := "image", description := sessionDescription
        datatype := some "uint8", sources := none }
    channel :=
      { name := "chan", collection_name := "col", experiment_name := "exp"
        ctype := "image", description := sessionDescription
        datatype := some "uint8", sources := some [] } }

/-! ## Basic lemmas about the embedded operations -/

lemma rangeStepGo_congr (stop step : Nat) :
    ∀ f1 f2 start, stop - start ≤ f1 → stop - start ≤ f2 →
      rangeStepGo stop step f1 start = rangeStepGo stop step f2 start := by
  intro f1
  induction f1 with
  | zero =>
    intro f2 start h1 _h2
    have hng : ¬ (start < stop ∧ 0 < step) := by omega
    match f2 with
    | 0 => rfl
    | g + 1 =>
      simp only [rangeStepGo]
      rw [if_neg hng]
  | succ f ih =>
    intro f2 start h1 h2
    match f2 with
    | 0 =>
      have hng : ¬ (start < stop ∧ 0 < step) := by omega
      simp only [rangeStepGo]
      rw [if_neg hng]
    | g + 1 =>
      simp only [rangeStepGo]
      by_cases hc : start < stop ∧ 0 < step
      · rw [if_pos hc, if_pos hc]
        have := ih g (start + step) (by omega) (by omega)
        rw [this]
      · rw [if_neg hc, if_neg hc]

lemma rangeStep_nil (stop step start : Nat) (h : ¬ (start < stop ∧ 0 < step)) :
    rangeStep stop step start = [] := by
  unfold rangeStep
  cases hf : stop - start with
  | zero => rfl
  | succ f =>
    simp only [rangeStepGo]
    rw [if_neg h]

lemma rangeStep_cons (stop step start : Nat) (h1 : start < stop) (h2 : 0 < step) :
    rangeStep stop step start = start :: rangeStep stop step (start + step) := by
  unfold rangeStep
  have hf : stop - start = (stop - start - 1) + 1 := by omega
  rw [hf]
  simp only [rangeStepGo]
  rw [if_pos ⟨h1, h2⟩]
  have := rangeStepGo_congr stop step (stop - start - 1) (stop - (start + step))
      (start + step) (by omega) (by omega)
  rw [this]

lemma slabLoopGo_unfold (writeRes : Nat → Option PyErr) (retryMax : Nat)
    (ev : WriteEvent) (fuel attempt : Nat) :
    slabLoopGo writeRes retryMax ev fuel attempt =
      match writeRes attempt with
      | none => ([ev], none)
      | some e =>
        if retryMax < attempt + 1 then ([ev], some e)
        else
          match fuel with
          | 0 => ([ev], some e)
          | f + 1 =>
            let r := slabLoopGo writeRes retryMax ev f (attempt + 1)
            (ev :: r.1, r.2) := by
  rw [slabLoopGo.eq_def]

lemma slabLoop_write_ok (writeRes : Nat → Option PyErr) (retryMax : Nat)
    (ev : WriteEvent) (attempt : Nat) (h : writeRes attempt = none) :
    slabLoop writeRes retryMax ev attempt = ([ev], none) := by
  unfold slabLoop
  rw [slabLoopGo_unfold, h]

lemma slabLoop_fail_exhausted (writeRes : Nat → Option PyErr) (retryMax : Nat)
    (ev : WriteEvent) (attempt : Nat) (e : PyErr) (h : writeRes attempt = some e)
    (hx : retryMax < attempt + 1) :
    slabLoop writeRes retryMax ev attempt = ([ev], some e) := by
  unfold slabLoop
  rw [slabLoopGo_unfold, h]
  simp [hx]

lemma slabLoop_fail_retry (writeRes : Nat → Option PyErr) (retryMax : Nat)
    (ev : WriteEvent) (attempt : Nat) (e : PyErr) (h : writeRes attempt = some e)
    (hx : attempt + 1 ≤ retryMax) :
    slabLoop writeRes retryMax ev attempt =
      (ev :: (slabLoop writeRes retryMax ev (attempt + 1)).1,
       (slabLoop writeRes retryMax ev (attempt + 1)).2) := by
  have hng : ¬ retryMax < attempt + 1 := by omega
  unfold slabLoop
  have hf : retryMax + 1 - attempt = (retryMax + 1 - (attempt + 1)) + 1 := by omega
  rw [hf, slabLoopGo_unfold, h]
  simp [hng]

/-- If the first `k` write attempts fail and attempt `k` succeeds
(counting from attempt index `t`, with the budget still open), the
retry loop issues exactly `k + 1` writes of the same prepared slab and
exits normally. -/
lemma slabLoop_first_success (writeRes : Nat → Option PyErr) (retryMax : Nat)
    (ev : WriteEvent) :
    ∀ k t, (∀ a, a < k → writeRes (t + a) ≠ none) → writeRes (t + k) = none →
      t + k ≤ retryMax →
      slabLoop writeRes retryMax ev t = (List.replicate (k + 1) ev, none) := by
  intro k
  induction k with
  | zero =>
    intro t _hf hs _hb
    simp only [Nat.add_zero] at hs
    rw [slabLoop_write_ok writeRes retryMax ev t hs]
    rfl
  | succ k ih =>
    intro t hf hs hb
    cases hw : writeRes t with
    | none => exact absurd hw (by simpa using hf 0 (by omega))
    | some e =>
      rw [slabLoop_fail_retry writeRes retryMax ev t e hw (by omega)]
      have hrec := ih (t + 1) (fun a ha => by
          have := hf (a + 1) (by omega)
          simpa [Nat.add_assoc, Nat.add_comm 1 a] using this)
        (by simpa [Nat.add_assoc, Nat.add_comm 1 k] using hs) (by omega)
      rw [hrec]
      simp [List.replicate_succ]

/-- If every write attempt fails, the retry loop starting at attempt
`t ≤ retryMax` issues exactly `retryMax + 1 - t` writes of the same
prepared slab and re-raises the error observed at the last attempt
(attempt index `retryMax`). -/
lemma slabLoop_all_fail (writeRes : Nat → Option PyErr) (retryMax : Nat)
    (ev : WriteEvent) (hfail : ∀ a, writeRes a ≠ none) :
    ∀ d t, retryMax - t = d → t ≤ retryMax →
      slabLoop writeRes retryMax ev t =
        (List.replicate (retryMax + 1 - t) ev, writeRes retryMax) := by
  intro d
  induction d with
  | zero =>
    intro t hd ht
    have heq : t = retryMax := by omega
    subst heq
    cases hw : writeRes t with
    | none => exact absurd hw (hfail t)
    | some e =>
      rw [slabLoop_fail_exhausted writeRes t ev t e hw (by omega)]
      have h1 : t + 1 - t = 1 := by omega
      rw [h1]
      rfl
  | succ d ih =>
    intro t hd ht
    cases hw : writeRes t with
    | none => exact absurd hw (hfail t)
    | some e =>
      rw [slabLoop_fail_retry writeRes retryMax ev t e hw (by omega)]
      rw [ih (t + 1) (by omega) (by omega)]
      have : retryMax + 1 - t = (retryMax + 1 - (t + 1)) + 1 := by omega
      rw [this, List.replicate_succ]

lemma get_or_create_ok (remote : Remote) (obj : Resource) (r : Project)
    (h : remote.get_project obj = .ok r) :
    get_or_create remote obj = ([.get obj], .ok r) := by
  unfold get_or_create
  rw [h]

lemma get_or_create_http (remote : Remote) (obj : Resource) (e : PyErr)
    (h : remote.get_project obj = .error e) (he : e.isHTTPError = true) :
    get_or_create remote obj = ([.get obj, .create obj], remote.create_project obj) := by
  unfold get_or_create
  rw [h]
  simp [he]

lemma get_or_create_other (remote : Remote) (obj : Resource) (e : PyErr)
    (h : remote.get_project obj = .error e) (he : e.isHTTPError = false) :
    get_or_create remote obj = ([.get obj], .error e) := by
  unfold get_or_create
  rw [h]
  simp [he]

/-! ## Transfer-plan lemmas -/

lemma range'_split (s m n : Nat) :
    List.range' s (m + n) = List.range' s m ++ List.range' (s + m) n := by
  rw [List.range'_append_1, Nat.add_comm m n]

lemma rangeStepGo_nil_of (stop step fuel s : Nat) (h : ¬ s < stop) :
    rangeStepGo stop step fuel s = [] := by
  cases fuel with
  | zero => rfl
  | succ f =>
    simp only [rangeStepGo]
    rw [if_neg (by omega)]

lemma rangeStepGo_cons_shape (stop step fuel s : Nat) (y : Nat) (tl : List Nat)
    (h : rangeStepGo stop step fuel s = y :: tl) : y = s := by
  cases fuel with
  | zero => simp [rangeStepGo] at h
  | succ f =>
    simp only [rangeStepGo] at h
    by_cases hc : s < stop ∧ 0 < step
    · rw [if_pos hc] at h
      exact (List.cons.injEq _ _ _ _ ▸ h).1.symm
    · rw [if_neg hc] at h
      exact absurd h (by simp)

lemma rangeStepGo_mem (stop step : Nat) :
    ∀ fuel start x, x ∈ rangeStepGo stop step fuel start → start ≤ x ∧ x < stop := by
  intro fuel
  induction fuel with
  | zero => intro start x hx; simp [rangeStepGo] at hx
  | succ f ih =>
    intro start x hx
    simp only [rangeStepGo] at hx
    by_cases hc : start < stop ∧ 0 < step
    · rw [if_pos hc] at hx
      rcases List.mem_cons.mp hx with h | h
      · omega
      · have := ih (start + step) x h
        omega
    · rw [if_neg hc] at hx
      simp at hx

lemma rangeStep_mem (stop step start x : Nat) (hx : x ∈ rangeStep stop step start) :
    start ≤ x ∧ x < stop :=
  rangeStepGo_mem stop step (stop - start) start x hx

lemma rangeStepGo_cover (stop step : Nat) (hstep : 0 < step) :
    ∀ fuel start, stop - start ≤ fuel →
      ((rangeStepGo stop step fuel start).map
          (fun i => (i, min (i + step) stop))).flatMap
          (fun p => List.range' p.1 (p.2 - p.1)) =
        List.range' start (stop - start) := by
  intro fuel
  induction fuel with
  | zero =>
    intro start h
    have h0 : stop - start = 0 := by omega
    simp [rangeStepGo, h0]
  | succ f ih =>
    intro start h
    simp only [rangeStepGo]
    by_cases hc : start < stop
    · rw [if_pos ⟨hc, hstep⟩]
      simp only [List.map_cons, List.flatMap_cons]
      rw [ih (start + step) (by omega)]
      by_cases h2 : start + step < stop
      · have hm : min (start + step) stop - start = step := by omega
        rw [hm]
        have hsplit : stop - start = step + (stop - (start + step)) := by omega
        rw [hsplit, range'_split]
      · have hn : stop - (start + step) = 0 := by omega
        have hm : min (start + step) stop - start = stop - start := by omega
        rw [hn, hm]
        simp
    · rw [if_neg (by omega : ¬ (start < stop ∧ 0 < step))]
      have h0 : stop - start = 0 := by omega
      simp [h0]

lemma rangeStepGo_chain (stop step : Nat) (hstep : 0 < step) :
    ∀ fuel start,
      List.Chain' (fun p q : Nat × Nat => p.2 = q.1 ∧ p.1 < q.1)
        ((rangeStepGo stop step fuel start).map (fun i => (i, min (i + step) stop))) := by
  intro fuel
  induction fuel with
  | zero => intro start; simp [rangeStepGo]
  | succ f ih =>
    intro start
    simp only [rangeStepGo]
    by_cases hc : start < stop
    · rw [if_pos ⟨hc, hstep⟩]
      simp only [List.map_cons]
      cases hrec : rangeStepGo stop step f (start + step) with
      | nil => simp
      | cons y tl =>
        have hy : y = start + step := rangeStepGo_cons_shape stop step f (start + step) y tl hrec
        have hmem : start + step ≤ y ∧ y < stop :=
          rangeStepGo_mem stop step f (start + step) y (by rw [hrec]; exact List.mem_cons_self _ _)
        have ihnext := ih (start + step)
        rw [hrec] at ihnext
        simp only [List.map_cons] at ihnext
        simp only [List.map_cons]
        rw [List.chain'_cons]
        refine ⟨⟨?_, ?_⟩, ihnext⟩
        · simp only [hy]
          omega
        · simp only [hy]
          omega
    · rw [if_neg (by omega : ¬ (start < stop ∧ 0 < step))]
      simp

lemma rangeStepGo_last (stop step : Nat) (hstep : 0 < step) :
    ∀ fuel start, start < stop → stop - start ≤ fuel →
      ∃ lst, (rangeStepGo stop step fuel start).getLast? = some lst ∧
        lst < stop ∧ stop ≤ lst + step ∧
        stop - lst = (if (stop - start) % step = 0 then step else (stop - start) % step) := by
  intro fuel
  induction fuel with
  | zero => intro start h1 h2; omega
  | succ f ih =>
    intro start h1 h2
    simp only [rangeStepGo]
    rw [if_pos ⟨h1, hstep⟩]
    by_cases h2' : start + step < stop
    · obtain ⟨lst, hl, hl1, hl2, hl3⟩ := ih (start + step) h2' (by omega)
      refine ⟨lst, ?_, hl1, hl2, ?_⟩
      · cases hrec : rangeStepGo stop step f (start + step) with
        | nil => rw [hrec] at hl; simp at hl
        | cons y tl =>
          rw [hrec] at hl
          rw [List.getLast?_cons_cons]
          exact hl
      · have hx : stop - start = (stop - (start + step)) + step := by omega
        rw [hx, Nat.add_mod_right]
        exact hl3
    · rw [rangeStepGo_nil_of stop step f (start + step) (by omega)]
      refine ⟨start, rfl, h1, by omega, ?_⟩
      by_cases hA : stop - start = step
      · rw [hA, Nat.mod_self]
        simp [hA]
      · have hlt : stop - start < step := by omega
        rw [Nat.mod_eq_of_lt hlt, if_neg (by omega)]

/-! ## Upload-loop lemmas -/

lemma contigAdjust_shape (a : NDArray) : (contigAdjust a).shape = a.shape := by
  unfold contigAdjust
  split <;> rfl

lemma contigAdjust_contiguous (a : NDArray) : (contigAdjust a).c_contiguous = true := by
  unfold contigAdjust
  by_cases hc : a.c_contiguous = true
  · rw [if_pos hc]
    exact hc
  · rw [if_neg hc]
    show (ascontiguousarray a).c_contiguous = true
    unfold NDArray.c_contiguous ascontiguousarray
    simp

lemma contigAdjust_of_contiguous (a : NDArray) (h : a.c_contiguous = true) :
    contigAdjust a = a := by
  unfold contigAdjust
  rw [if_pos h]

lemma uploadLoop_cons_fail (source : Nat → Nat → NDArray)
    (writeRes : Nat → Nat → Option PyErr) (inc retryMax zMax i : Nat)
    (rest : List Nat) (e : PyErr)
    (h : (slabLoop (writeRes i) retryMax
        (mkEvent i (contigAdjust (source i (min (i + inc) zMax)))) 0).2 = some e) :
    uploadLoop source writeRes inc retryMax zMax (i :: rest) =
      ((slabLoop (writeRes i) retryMax
          (mkEvent i (contigAdjust (source i (min (i + inc) zMax)))) 0).1, some e) := by
  simp only [uploadLoop]
  rw [h]

lemma uploadLoop_cons_ok (source : Nat → Nat → NDArray)
    (writeRes : Nat → Nat → Option PyErr) (inc retryMax zMax i : Nat)
    (rest : List Nat)
    (h : (slabLoop (writeRes i) retryMax
        (mkEvent i (contigAdjust (source i (min (i + inc) zMax)))) 0).2 = none) :
    uploadLoop source writeRes inc retryMax zMax (i :: rest) =
      ((slabLoop (writeRes i) retryMax
          (mkEvent i (contigAdjust (source i (min (i + inc) zMax)))) 0).1 ++
        (uploadLoop source writeRes inc retryMax zMax rest).1,
       (uploadLoop source writeRes inc retryMax zMax rest).2) := by
  simp only [uploadLoop]
  rw [h]

lemma arraySlice_mk_shape (depth hh ww : Nat) (buf : List Nat) (dt : String) (i j : Nat) :
    (arraySlice (mkNDArray [depth, hh, ww] buf dt) i j).shape =
      [min j depth - min i depth, hh, ww] := rfl

lemma mkEvent_zStart (i : Nat) (stack : NDArray) : (mkEvent i stack).zStart = i := rfl

lemma mkEvent_zEnd_slice (depth hh ww inc : Nat) (buf : List Nat) (dt : String)
    (start : Nat) (hc : start < depth) :
    (mkEvent start (contigAdjust (arraySlice (mkNDArray [depth, hh, ww] buf dt) start
      (min (start + inc) depth)))).zEnd = min (start + inc) depth := by
  simp only [mkEvent, contigAdjust_shape, arraySlice_mk_shape]
  simp only [List.getD_cons_zero]
  omega

/-- With a writer that always succeeds and the raw-data slab source,
the upload loop issues exactly one write per planned slab, in order,
each covering exactly the planned depth range. -/
lemma uploadLoop_allok_events (depth hh ww inc retryMax : Nat) (buf : List Nat)
    (dt : String) (hstep : 0 < inc) :
    ∀ fuel start,
      ((uploadLoop (fun i z => arraySlice (mkNDArray [depth, hh, ww] buf dt) i z)
          (fun _ _ => none) inc retryMax depth (rangeStepGo depth inc fuel start)).1.map
          (fun ev => (ev.zStart, ev.zEnd)) =
        (rangeStepGo depth inc fuel start).map (fun i => (i, min (i + inc) depth))) ∧
      (uploadLoop (fun i z => arraySlice (mkNDArray [depth, hh, ww] buf dt) i z)
          (fun _ _ => none) inc retryMax depth (rangeStepGo depth inc fuel start)).2 = none := by
  intro fuel
  induction fuel with
  | zero => intro start; simp [rangeStepGo, uploadLoop]
  | succ f ih =>
    intro start
    simp only [rangeStepGo]
    by_cases hc : start < depth
    · rw [if_pos ⟨hc, hstep⟩]
      have hslab := slabLoop_write_ok (fun _ => (none : Option PyErr)) retryMax
        (mkEvent start (contigAdjust (arraySlice (mkNDArray [depth, hh, ww] buf dt)
          start (min (start + inc) depth)))) 0 rfl
      rw [uploadLoop_cons_ok _ _ _ _ _ _ _ (by rw [hslab])]
      rw [hslab]
      constructor
      · simp only [List.map_append, List.map_cons, List.map_nil]
        rw [(ih (start + inc)).1]
        · simp only [List.cons_append, List.nil_append]
          rw [mkEvent_zEnd_slice depth hh ww inc buf dt start hc, mkEvent_zStart]
      · exact (ih (start + inc)).2
    · rw [if_neg (by omega : ¬ (start < depth ∧ 0 < inc))]
      simp [uploadLoop]

/-- Slabs whose writes eventually succeed within the retry budget are
transparent to the rest of the upload: the loop continues with the
remaining slabs, and every processed slab left at least one write
event in the trace. -/
lemma uploadLoop_append_ok (source : Nat → Nat → NDArray)
    (writeRes : Nat → Nat → Option PyErr) (inc retryMax zMax : Nat) :
    ∀ l1 l2,
      (∀ j ∈ l1, ∃ k, k ≤ retryMax ∧ writeRes j k = none ∧
        ∀ a, a < k → writeRes j a ≠ none) →
      ∃ E1, uploadLoop source writeRes inc retryMax zMax (l1 ++ l2) =
          (E1 ++ (uploadLoop source writeRes inc retryMax zMax l2).1,
           (uploadLoop source writeRes inc retryMax zMax l2).2) ∧
        (∀ ev ∈ E1, ev.zStart ∈ l1) ∧
        (∀ j ∈ l1, ∃ ev ∈ E1, ev.zStart = j) := by
  intro l1
  induction l1 with
  | nil =>
    intro l2 _h
    exact ⟨[], by simp, by simp, by simp⟩
  | cons j l1' ih =>
    intro l2 hpre
    obtain ⟨k, hk, hsucc, hfails⟩ := hpre j (List.mem_cons_self _ _)
    have hslab := slabLoop_first_success (writeRes j) retryMax
      (mkEvent j (contigAdjust (source j (min (j + inc) zMax)))) k 0
      (by intro a ha; simpa using hfails a ha) (by simpa using hsucc) (by omega)
    obtain ⟨E1, hEq, hMem, hCov⟩ := ih l2
      (fun j' hj' => hpre j' (List.mem_cons_of_mem _ hj'))
    refine ⟨List.replicate (k + 1)
        (mkEvent j (contigAdjust (source j (min (j + inc) zMax)))) ++ E1, ?_, ?_, ?_⟩
    · rw [List.cons_append]
      rw [uploadLoop_cons_ok _ _ _ _ _ _ _ (by rw [hslab])]
      rw [hslab, hEq]
      simp [List.append_assoc]
    · intro ev hev
      rcases List.mem_append.mp hev with h | h
      · have := List.eq_of_mem_replicate h
        rw [this, mkEvent_zStart]
        exact List.mem_cons_self _ _
      · exact List.mem_cons_of_mem _ (hMem ev h)
    · intro j' hj'
      rcases List.mem_cons.mp hj' with h | h
      · refine ⟨mkEvent j (contigAdjust (source j (min (j + inc) zMax))), ?_, ?_⟩
        · exact List.mem_append_left _ (List.mem_replicate.mpr ⟨by omega, rfl⟩)
        · rw [mkEvent_zStart, h]
      · obtain ⟨ev, hev, hz⟩ := hCov j' h
        exact ⟨ev, List.mem_append_right _ hev, hz⟩

/-! ## ndarray index lemmas (contiguity normalization, C10) -/

lemma length_allIndices : ∀ shape : List Nat, (allIndices shape).length = shape.prod := by
  intro shape
  induction shape with
  | nil => rfl
  | cons d rest ih =>
    simp only [allIndices, List.length_flatMap, List.prod_cons]
    have hmap : List.map (List.length ∘ fun i => ((allIndices rest).map (i :: ·)))
        (List.range d) = List.replicate d rest.prod := by
      rw [show (List.length ∘ fun i : Nat => ((allIndices rest).map (i :: ·))) =
          (fun _ : Nat => rest.prod) from ?_]
      · rw [List.map_const', List.length_range]
      · funext i
        simp [Function.comp, List.length_map, ih]
    rw [hmap, List.sum_replicate, smul_eq_mul]

lemma rmRank_lt (shape idx : List Nat) (h : List.Forall₂ (· < ·) idx shape) :
    rmRank shape idx < shape.prod := by
  induction h with
  | nil => simp [rmRank]
  | @cons a b l₁ l₂ h1 h2 ih =>
    simp only [rmRank, List.prod_cons]
    calc a * l₂.prod + rmRank l₂ l₁ < a * l₂.prod + l₂.prod := by omega
    _ = (a + 1) * l₂.prod := by rw [Nat.succ_mul]
    _ ≤ b * l₂.prod := Nat.mul_le_mul_right _ (by omega)

lemma flatIndex_rowMajor (shape idx : List Nat) (h : List.Forall₂ (· < ·) idx shape) :
    flatIndex idx (rowMajorStrides shape) = (rmRank shape idx : Int) := by
  induction h with
  | nil => simp [flatIndex, rowMajorStrides, rmRank]
  | @cons a b l₁ l₂ h1 h2 ih =>
    simp only [flatIndex, rowMajorStrides, rmRank, ih]
    push_cast
    ring

lemma flatMap_getElem_blocks {α β : Type _} (f : α → List β) (P : Nat) :
    ∀ (l : List α) (q r : Nat), (∀ a ∈ l, (f a).length = P) → r < P →
      ∀ hq : q < l.length,
      (l.flatMap f)[q * P + r]? = (f (l.get ⟨q, hq⟩))[r]? := by
  intro l
  induction l with
  | nil => intro q r _ _ hq; simp at hq
  | cons a l ih =>
    intro q r hlen hr hq
    rw [List.flatMap_cons]
    cases q with
    | zero =>
      simp only [Nat.zero_mul, Nat.zero_add]
      rw [List.getElem?_append]
      rw [if_pos (by rw [hlen a (List.mem_cons_self _ _)]; exact hr)]
      rfl
    | succ q' =>
      have hP : (f a).length = P := hlen a (List.mem_cons_self _ _)
      have hge : (f a).length ≤ (q' + 1) * P + r := by
        rw [hP, Nat.succ_mul]
        omega
      rw [List.getElem?_append_right hge]
      have harith : (q' + 1) * P + r - (f a).length = q' * P + r := by
        rw [hP, Nat.succ_mul]
        omega
      rw [harith]
      exact ih q' r (fun b hb => hlen b (List.mem_cons_of_mem _ hb)) hr (by simpa using hq)

lemma allIndices_getElem (shape idx : List Nat) (h : List.Forall₂ (· < ·) idx shape) :
    (allIndices shape)[rmRank shape idx]? = some idx := by
  induction h with
  | nil => rfl
  | @cons a b l₁ l₂ h1 h2 ih =>
    simp only [allIndices, rmRank]
    have hblock : ∀ j ∈ List.range b, ((allIndices l₂).map (j :: ·)).length = l₂.prod := by
      intro j _
      rw [List.length_map, length_allIndices]
    have hq : a < (List.range b).length := by
      rw [List.length_range]
      exact h1
    rw [flatMap_getElem_blocks _ l₂.prod (List.range b) a (rmRank l₂ l₁) hblock
        (rmRank_lt l₂ l₁ h2) hq]
    rw [List.get_range]
    rw [List.getElem?_map, ih]
    rfl

lemma item_eq_get (a : NDArray) (idx : List Nat) (n : Nat)
    (hf : a.offset + flatIndex idx a.strides = (n : Int)) (hn : n < a.buffer.length) :
    a.item idx = a.buffer.get ⟨n, hn⟩ := by
  simp only [NDArray.item, hf]
  rw [dif_pos ⟨Int.ofNat_nonneg n, by simpa using hn⟩]
  congr 1

/-- The model of `np.ascontiguousarray` preserves every element: at
each in-bounds multi-index the materialized copy holds the same value
as the original strided view. -/
lemma item_ascontiguousarray (a : NDArray) (idx : List Nat)
    (h : List.Forall₂ (· < ·) idx a.shape) :
    (ascontiguousarray a).item idx = a.item idx := by
  have hflat : flatIndex idx (rowMajorStrides a.shape) = (rmRank a.shape idx : Int) :=
    flatIndex_rowMajor a.shape idx h
  have hlt : rmRank a.shape idx < a.shape.prod := rmRank_lt a.shape idx h
  have hlen : ((allIndices a.shape).map a.item).length = a.shape.prod := by
    rw [List.length_map, length_allIndices]
  have hn : rmRank a.shape idx < ((allIndices a.shape).map a.item).length := by
    rw [hlen]
    exact hlt
  rw [item_eq_get (ascontiguousarray a) idx (rmRank a.shape idx)
      (by simp [ascontiguousarray, hflat]) hn]
  have hlt' : rmRank a.shape idx < (allIndices a.shape).length := by
    rw [length_allIndices]
    exact hlt
  have hidx : (allIndices a.shape).get ⟨rmRank a.shape idx, hlt'⟩ = idx := by
    have h1 := allIndices_getElem a.shape idx h
    rw [List.getElem?_eq_getElem hlt'] at h1
    simpa using h1
  show ((allIndices a.shape).map a.item).get ⟨rmRank a.shape idx, hn⟩ = a.item idx
  rw [List.get_map]
  rw [hidx]

lemma contigAdjust_item (a : NDArray) (idx : List Nat)
    (h : List.Forall₂ (· < ·) idx a.shape) :
    (contigAdjust a).item idx = a.item idx := by
  unfold contigAdjust
  by_cases hc : a.c_contiguous = true
  · rw [if_pos hc]
  · rw [if_neg hc]
    exact item_ascontiguousarray a idx h

lemma slabLoopGo_ok (writeRes : Nat → Option PyErr) (retryMax : Nat) (ev : WriteEvent)
    (fuel attempt : Nat) (h : writeRes attempt = none) :
    slabLoopGo writeRes retryMax ev fuel attempt = ([ev], none) := by
  rw [slabLoopGo_unfold, h]

lemma slabLoopGo_exhausted (writeRes : Nat → Option PyErr) (retryMax : Nat)
    (ev : WriteEvent) (fuel attempt : Nat) (e : PyErr) (h : writeRes attempt = some e)
    (hb : retryMax < attempt + 1) :
    slabLoopGo writeRes retryMax ev fuel attempt = ([ev], some e) := by
  rw [slabLoopGo_unfold, h]
  simp [hb]

lemma slabLoopGo_retry_zero (writeRes : Nat → Option PyErr) (retryMax : Nat)
    (ev : WriteEvent) (attempt : Nat) (e : PyErr) (h : writeRes attempt = some e)
    (hb : ¬ retryMax < attempt + 1) :
    slabLoopGo writeRes retryMax ev 0 attempt = ([ev], some e) := by
  rw [slabLoopGo_unfold, h]
  simp [hb]

lemma slabLoopGo_retry_succ (writeRes : Nat → Option PyErr) (retryMax : Nat)
    (ev : WriteEvent) (f attempt : Nat) (e : PyErr) (h : writeRes attempt = some e)
    (hb : ¬ retryMax < attempt + 1) :
    slabLoopGo writeRes retryMax ev (f + 1) attempt =
      (ev :: (slabLoopGo writeRes retryMax ev f (attempt + 1)).1,
       (slabLoopGo writeRes retryMax ev f (attempt + 1)).2) := by
  rw [slabLoopGo_unfold, h]
  simp [hb]

lemma slabLoopGo_events (writeRes : Nat → Option PyErr) (retryMax : Nat)
    (ev : WriteEvent) :
    ∀ fuel attempt x, x ∈ (slabLoopGo writeRes retryMax ev fuel attempt).1 → x = ev := by
  intro fuel
  induction fuel with
  | zero =>
    intro attempt x hx
    cases hw : writeRes attempt with
    | none =>
      rw [slabLoopGo_ok writeRes retryMax ev 0 attempt hw] at hx
      simpa using hx
    | some e =>
      by_cases hb : retryMax < attempt + 1
      · rw [slabLoopGo_exhausted writeRes retryMax ev 0 attempt e hw hb] at hx
        simpa using hx
      · rw [slabLoopGo_retry_zero writeRes retryMax ev attempt e hw hb] at hx
        simpa using hx
  | succ f ih =>
    intro attempt x hx
    cases hw : writeRes attempt with
    | none =>
      rw [slabLoopGo_ok writeRes retryMax ev (f + 1) attempt hw] at hx
      simpa using hx
    | some e =>
      by_cases hb : retryMax < attempt + 1
      · rw [slabLoopGo_exhausted writeRes retryMax ev (f + 1) attempt e hw hb] at hx
        simpa using hx
      · rw [slabLoopGo_retry_succ writeRes retryMax ev f attempt e hw hb] at hx
        rcases List.mem_cons.mp hx with h | h
        · exact h
        · exact ih (attempt + 1) x h

lemma slabLoop_events (writeRes : Nat → Option PyErr) (retryMax : Nat)
    (ev : WriteEvent) (attempt : Nat) (x : WriteEvent)
    (hx : x ∈ (slabLoop writeRes retryMax ev attempt).1) : x = ev :=
  slabLoopGo_events writeRes retryMax ev (retryMax + 1 - attempt) attempt x hx

/-- Every write event the upload loop issues writes one of the planned
slabs, already passed through the contiguity adjustment. -/
lemma uploadLoop_event_shape (source : Nat → Nat → NDArray)
    (writeRes : Nat → Nat → Option PyErr) (inc retryMax zMax : Nat) :
    ∀ starts ev, ev ∈ (uploadLoop source writeRes inc retryMax zMax starts).1 →
      ∃ i ∈ starts, ev = mkEvent i (contigAdjust (source i (min (i + inc) zMax))) := by
  intro starts
  induction starts with
  | nil => intro ev hev; simp [uploadLoop] at hev
  | cons i rest ih =>
    intro ev hev
    simp only [uploadLoop] at hev
    split at hev
    · have := slabLoop_events _ _ _ _ ev hev
      exact ⟨i, List.mem_cons_self _ _, this⟩
    · rcases List.mem_append.mp hev with h | h
      · have := slabLoop_events _ _ _ _ ev h
        exact ⟨i, List.mem_cons_self _ _, this⟩
      · obtain ⟨j, hj, hje⟩ := ih ev h
        exact ⟨j, List.mem_cons_of_mem _ hj, hje⟩

/-! ## Claim theorems -/

/-- C1 (counterexample): the claim says a create is attempted only
when the fetch fails with a "not found" class of error, and that any
other fetch error propagates without a create attempt.  On the code,
`_get_or_create` catches every `requests.HTTPError`: a fetch failing
with HTTP 500 — a server error, not "not found" — still leads to a
create call. -/
theorem c1_get_or_create_counterexample :
    RemoteCall.create objColl ∈ (get_or_create remote500 objColl).1 ∧
    remote500.get_project objColl = .error (.httpError 500) ∧
    PyErr.isNotFoundHTTP (.httpError 500) = false := by
  refine ⟨by decide, rfl, rfl⟩

/-- C1 (amended): in `_get_or_create`, the create step is taken
exactly when the fetch fails with an `HTTPError` of any status (the
exception class that includes "not found"); a fetch error outside the
`HTTPError` class propagates to the caller unchanged with no create
attempt; and the fetch is issued exactly once (never retried). -/
theorem c1_get_or_create_amended (remote : Remote) (obj : Resource) :
    (RemoteCall.create obj ∈ (get_or_create remote obj).1 ↔
      ∃ e, remote.get_project obj = .error e ∧ e.isHTTPError = true) ∧
    (∀ e, remote.get_project obj = .error e → e.isHTTPError = false →
      get_or_create remote obj = ([.get obj], .error e)) ∧
    (get_or_create remote obj).1.countP RemoteCall.isGet = 1 := by
  cases hg : remote.get_project obj with
  | ok r =>
    rw [get_or_create_ok remote obj r hg]
    refine ⟨?_, ?_, ?_⟩
    · simp only [List.mem_singleton]
      constructor
      · intro h
        exact absurd h (by simp)
      · rintro ⟨e, he, _⟩
        exact absurd he (by simp)
    · intro e he _
      exact absurd he (by simp)
    · simp [RemoteCall.isGet]
  | error e =>
    by_cases hh : e.isHTTPError = true
    · rw [get_or_create_http remote obj e hg hh]
      refine ⟨?_, ?_, ?_⟩
      · simp only [List.mem_cons]
        constructor
        · intro _
          exact ⟨e, rfl, hh⟩
        · intro _
          simp
      · intro e' he' hf
        injection he' with h
        rw [← h, hh] at hf
        exact absurd hf (by simp)
      · simp [RemoteCall.isGet]
    · have hf : e.isHTTPError = false := by
        cases hcase : e.isHTTPError
        · rfl
        · exact absurd hcase hh
      rw [get_or_create_other remote obj e hg hf]
      refine ⟨?_, ?_, ?_⟩
      · simp only [List.mem_singleton]
        constructor
        · intro h
          exact absurd h (by simp)
        · rintro ⟨e', he', hh'⟩
          injection he' with h
          rw [← h, hf] at hh'
          exact absurd hh' (by simp)
      · intro e' he' _
        injection he' with h
        rw [h]
      · simp [RemoteCall.isGet]

/-- C1 (witness): a non-HTTP fetch error propagates unchanged with a
single get call and no create call. -/
theorem c1_get_or_create_amended_witness :
    get_or_create remoteOther objColl2 = ([.get objColl2], .error (.otherError ("boom"))) :=
  (c1_get_or_create_amended remoteOther objColl2).2.1 (.otherError ("boom")) rfl rfl

/-- C2 (counterexample): the claim says every file-sequence session
with an empty filtered listing raises the "no matching files" error at
construction.  On the code, when the destination already exists and
overwrite is not requested, `__init__` returns early at the overwrite
gate (lines 61-66) before ever calling `fetch_images`, so no error is
raised at all for such a session. -/
theorem c2_empty_listing_counterexample :
    runSession remote404 true [] argsC2cex srcFix wrAllOk =
      ({ provision_trace := [], provision_called := false }, [], .earlyExit) := by
  decide

/-- C2 (amended): for a file-sequence session (raw_data is None) whose
directory listing filtered by the extension suffix is empty, *provided
construction passes the overwrite gate with an already-existing
destination* (overwrite = true, channel exists), the fatal
`DataJointError` "No files found ..." is raised at construction time,
with zero provisioning calls and zero write calls.  (When the
destination does not exist, provisioning runs — and crashes — before
the listing is ever consulted, so the error cannot precede it.) -/
theorem c2_empty_listing_amended (remote : Remote) (dirFiles : List String)
    (a : InitArgs) (fileSource : Nat → Nat → NDArray)
    (writeRes : Nat → Nat → Option PyErr)
    (hraw : a.raw_data = none)
    (hempty : dirFiles.filter (fun f => matchesExtension f a.data_extension) = [])
    (hover : a.overwrite = true) :
    runSession remote true dirFiles a fileSource writeRes =
      ({ provision_trace := [], provision_called := false }, [],
       .raised (.dataJointError ("No files found in the specified directory "
         ++ a.data_dir ++ "/*" ++ a.data_extension ++ "."))) := by
  unfold runSession initBossDBUpload fetch_images
  rw [hover, hraw, hempty]
  simp [sortedList]

/-- C2 (witness): a concrete empty-after-filter listing on an existing
destination with overwrite raises the configuration error with no
remote calls. -/
theorem c2_empty_listing_amended_witness :
    runSession remote404 true ["notes.txt"] argsC2w srcFix wrAllOk =
      ({ provision_trace := [], provision_called := false }, [],
       .raised (.dataJointError ("No files found in the specified directory /data/*.tif."))) :=
  c2_empty_listing_amended remote404 ["notes.txt"] argsC2w srcFix wrAllOk rfl (by decide) rfl

/-- C5 (code bug): the overwrite gate itself behaves as claimed — with
overwrite = false and an existing destination the session exits early
with no provisioning call and no write call.  But the claim's second
half fails: with overwrite = true and a destination that does not yet
exist, provisioning does not "proceed normally" — `try_create_new` is
called before `self._dtype` has been assigned (lines 69 vs 71-75), so
the `resources` property raises `AttributeError` and construction
crashes before any remote call and before any upload. -/
theorem c5_overwrite_gate_evaluation :
    runSession remote404 true [] argsGate srcFix wrAllOk =
      ({ provision_trace := [], provision_called := false }, [], .earlyExit) ∧
    runSession remote404 false [] argsOw srcFix wrAllOk =
      ({ provision_trace := [], provision_called := true }, [],
       .raised (.attributeError ("_dtype"))) := by
  refine ⟨by decide, by decide⟩

/-- C6 (code bug): dtype is *not* resolved before the channel is
provisioned.  `__init__` calls `try_create_new` (line 69) before
assigning `self._dtype` (lines 71-75), so building the channel
descriptor (line 184, `datatype=self._dtype`) raises `AttributeError`
whenever the destination has to be created; no channel descriptor
carrying the resolved dtype is ever sent.  Had the attribute been set,
the descriptor would carry it, as the last conjunct shows. -/
theorem c6_dtype_resolution_evaluation :
    (initBossDBUpload remote404 false [] argsC6).2 =
      .raised (.attributeError ("_dtype")) ∧
    (initBossDBUpload remote404 false [] argsC6).1.provision_trace = [] ∧
    resourcesProperty argsC6 none = .error (.attributeError ("_dtype")) ∧
    (resourcesProperty argsC6 (some (some "uint64"))).map
      (fun rs => rs.channel_resource.datatype) = .ok (some "uint64") := by
  refine ⟨by decide, by decide, by decide, by decide⟩

/-- C9: the coordinate-frame descriptor built by the `resources`
property is derived from the URI segments and the geometry exactly as
claimed: name `CF_<collection>_<experiment>`, x/y/z starts 0, x stop =
width (`shape_zyx[2]`), y stop = height (`shape_zyx[1]`), z stop =
depth (`shape_zyx[0]`), and each axis voxel size taken from the
matching component of the ZYX voxel-size triple. -/
theorem c9_coord_frame_descriptor (a : InitArgs) (dt : Option String) :
    ∃ rs, resourcesProperty a (some dt) = .ok rs ∧
      rs.coord_frame.name = "CF_" ++ a.collection ++ "_" ++ a.experiment ∧
      rs.coord_frame.x_start = 0 ∧
      rs.coord_frame.y_start = 0 ∧
      rs.coord_frame.z_start = 0 ∧
      rs.coord_frame.x_stop = a.shape_zyx.2.2 ∧
      rs.coord_frame.y_stop = a.shape_zyx.2.1 ∧
      rs.coord_frame.z_stop = a.shape_zyx.1 ∧
      rs.coord_frame.x_voxel_size = a.voxel_size.2.2 ∧
      rs.coord_frame.y_voxel_size = a.voxel_size.2.1 ∧
      rs.coord_frame.z_voxel_size = a.voxel_size.1 := by
  exact ⟨_, rfl, rfl, rfl, rfl, rfl, rfl, rfl, rfl, rfl, rfl, rfl⟩

/-- C7: if the cutout write for a slab fails `k < retryMax` times and
then succeeds, the upload issues exactly those `k + 1` write attempts
— each re-sending the *same* already-fetched, already-normalized slab
(the event repeated is literally the one prepared before the retry
loop, so nothing is re-fetched or re-normalized) — and then continues
with the remaining slabs exactly as if the slab had succeeded at once:
no abort, no slab skipped. -/
theorem c7_retry_recovery (source : Nat → Nat → NDArray)
    (writeRes : Nat → Nat → Option PyErr) (inc retryMax zMax i : Nat)
    (rest : List Nat) (k : Nat)
    (hk : k < retryMax)
    (hfails : ∀ a, a < k → writeRes i a ≠ none)
    (hsucc : writeRes i k = none) :
    uploadLoop source writeRes inc retryMax zMax (i :: rest) =
      (List.replicate (k + 1)
          (mkEvent i (contigAdjust (source i (min (i + inc) zMax)))) ++
        (uploadLoop source writeRes inc retryMax zMax rest).1,
       (uploadLoop source writeRes inc retryMax zMax rest).2) := by
  have hslab := slabLoop_first_success (writeRes i) retryMax
    (mkEvent i (contigAdjust (source i (min (i + inc) zMax)))) k 0
    (by intro a ha; simpa using hfails a ha) (by simpa using hsucc) (by omega)
  rw [uploadLoop_cons_ok _ _ _ _ _ _ _ (by rw [hslab])]
  rw [hslab]

/-- C7 (witness): slab 0 fails once then succeeds with retryMax = 3;
both attempts write the same normalized slab and the loop continues
with the slab at 2. -/
theorem c7_retry_recovery_witness :
    uploadLoop srcFix wrC7 2 3 4 (0 :: [2]) =
      (List.replicate 2 (mkEvent 0 (contigAdjust (srcFix 0 (min (0 + 2) 4)))) ++
        (uploadLoop srcFix wrC7 2 3 4 [2]).1,
       (uploadLoop srcFix wrC7 2 3 4 [2]).2) :=
  c7_retry_recovery srcFix wrC7 2 3 4 0 [2] 1 (by omega)
    (fun a ha => by
      have ha0 : a = 0 := by omega
      rw [ha0]
      intro hcon
      simp [wrC7] at hcon)
    (by decide)

/-- C10: every buffer handed to the remote cutout write is row-major
contiguous; an already-contiguous slab passes through the adjustment
unmodified; and the adjustment changes neither the shape nor any
element value of the slab. -/
theorem c10_contiguity_normalization (source : Nat → Nat → NDArray)
    (writeRes : Nat → Nat → Option PyErr) (inc retryMax zMax : Nat)
    (starts : List Nat) :
    (∀ ev ∈ (uploadLoop source writeRes inc retryMax zMax starts).1,
      ev.stack.c_contiguous = true) ∧
    (∀ a : NDArray, a.c_contiguous = true → contigAdjust a = a) ∧
    (∀ a : NDArray, (contigAdjust a).shape = a.shape) ∧
    (∀ a : NDArray, ∀ idx, List.Forall₂ (· < ·) idx a.shape →
      (contigAdjust a).item idx = a.item idx) := by
  refine ⟨?_, contigAdjust_of_contiguous, contigAdjust_shape, contigAdjust_item⟩
  intro ev hev
  obtain ⟨i, _, hev_eq⟩ := uploadLoop_event_shape source writeRes inc retryMax zMax
    starts ev hev
  rw [hev_eq]
  exact contigAdjust_contiguous _

/-- C10 (witness): on a concrete non-contiguous 2x2 slab the
adjustment yields a contiguous buffer with unchanged values, a
contiguous slab passes through unchanged, and a concrete upload trace
contains only contiguous buffers. -/
theorem c10_contiguity_normalization_witness :
    (mkEvent 0 (contigAdjust (srcFix 0 (min (0 + 2) 4)))).stack.c_contiguous = true ∧
    contigAdjust tinyFix = tinyFix ∧
    (contigAdjust ncFix).shape = ncFix.shape ∧
    (contigAdjust ncFix).item [1, 0] = ncFix.item [1, 0] := by
  refine ⟨?_, ?_, ?_, ?_⟩
  · exact (c10_contiguity_normalization srcFix wrAllOk 2 3 4 [0]).1
      (mkEvent 0 (contigAdjust (srcFix 0 (min (0 + 2) 4)))) (by decide)
  · exact (c10_contiguity_normalization srcFix wrAllOk 2 3 4 [0]).2.1 tinyFix (by decide)
  · exact (c10_contiguity_normalization srcFix wrAllOk 2 3 4 [0]).2.2.1 ncFix
  · exact (c10_contiguity_normalization srcFix wrAllOk 2 3 4 [0]).2.2.2 ncFix [1, 0]
      (by decide)

/-- C8: `try_create_new` performs its five get-or-create steps in the
mandatory order collection, coordinate frame, experiment, precursor
channel (`channel_resource`), final channel — the full remote-call
trace is exactly the concatenation of the five get-or-create traces in
that order — and it propagates confirmed identities forward: the
experiment descriptor it submits carries the remote-confirmed
coordinate-frame name (`true_coord_frame.name`), and the final channel
descriptor it submits carries `sources = [confirmed precursor name]`.
(The hypotheses say each step succeeds; `dt` is the value held by
`self._dtype` when the `resources` property is evaluated.) -/
theorem c8_provisioning_order (a : InitArgs) (dt : Option String) (remote : Remote)
    (rs : ResourcesSet) (p1 cfP p3 chP p5 : Project)
    (hrs : resourcesProperty a (some dt) = .ok rs)
    (h1 : (get_or_create remote (.collection rs.collection)).2 = .ok p1)
    (h2 : (get_or_create remote (.coordFrame rs.coord_frame)).2 = .ok cfP)
    (h3 : (get_or_create remote (.experiment
        { rs.experiment with coord_frame := cfP.name })).2 = .ok p3)
    (h4 : (get_or_create remote (.channel rs.channel_resource)).2 = .ok chP)
    (h5 : (get_or_create remote (.channel
        { rs.channel with sources := some [chP.name] })).2 = .ok p5) :
    try_create_new_method remote a (some dt) =
      ((get_or_create remote (.collection rs.collection)).1 ++
       (get_or_create remote (.coordFrame rs.coord_frame)).1 ++
       (get_or_create remote (.experiment
         { rs.experiment with coord_frame := cfP.name })).1 ++
       (get_or_create remote (.channel rs.channel_resource)).1 ++
       (get_or_create remote (.channel
         { rs.channel with sources := some [chP.name] })).1,
       .ok ()) := by
  have hbody : try_create_new_method remote a (some dt) = try_create_new remote rs := by
    unfold try_create_new_method
    rw [hrs]
  rw [hbody]
  unfold try_create_new
  simp only [h1, h2, h3, h4, h5]
  rfl

/-- C8 (witness): against a remote on which every fetch 404s and every
create confirms the requested name, provisioning for the fixture
session issues get-then-create for each of the five descriptors in
order, with the experiment carrying `CF_col_exp` and the final channel
carrying `sources = ["chan"]`. -/
theorem c8_provisioning_order_witness :
    try_create_new_method remote404 argsC8 (some (some "uint8")) =
      ((get_or_create remote404 (.collection rsFix.collection)).1 ++
       (get_or_create remote404 (.coordFrame rsFix.coord_frame)).1 ++
       (get_or_create remote404 (.experiment
         { rsFix.experiment with coord_frame := "CF_col_exp" })).1 ++
       (get_or_create remote404 (.channel rsFix.channel_resource)).1 ++
       (get_or_create remote404 (.channel
         { rsFix.channel with sources := some ["chan"] })).1,
       .ok ()) :=
  c8_provisioning_order argsC8 (some "uint8") remote404 rsFix
    { name := "col" } { name := "CF_col_exp" } { name := "exp" }
    { name := "chan" } { name := "chan" }
    (by decide) (by decide) (by decide) (by decide) (by decide) (by decide)

/-- C3: if upload reaches a slab whose every write attempt fails
(every earlier slab in the plan succeeded within the budget), then
exactly `retryMax + 1` write attempts are made on that slab, the whole
upload aborts surfacing the error observed at the last attempt (the
result is literally `writeRes i retryMax`), zero write attempts are
made for any subsequent slab, and the writes already made for prior
slabs remain in the trace (nothing is rolled back). -/
theorem c3_retry_exhaustion (source : Nat → Nat → NDArray)
    (writeRes : Nat → Nat → Option PyErr) (inc retryMax zMax : Nat)
    (l1 l2 : List Nat) (i : Nat)
    (hplan : rangeStep zMax inc 0 = l1 ++ i :: l2)
    (hpre : ∀ j ∈ l1, ∃ k, k ≤ retryMax ∧ writeRes j k = none ∧
      ∀ a, a < k → writeRes j a ≠ none)
    (hfail : ∀ a, writeRes i a ≠ none)
    (hi1 : i ∉ l1)
    (hl2 : ∀ j ∈ l2, j ∉ l1 ∧ j ≠ i) :
    (uploadMethod source writeRes inc retryMax zMax).2 = writeRes i retryMax ∧
    ((uploadMethod source writeRes inc retryMax zMax).1.countP
      (fun ev => ev.zStart == i)) = retryMax + 1 ∧
    (∀ j ∈ l2, ((uploadMethod source writeRes inc retryMax zMax).1.countP
      (fun ev => ev.zStart == j)) = 0) ∧
    (∀ j ∈ l1, ∃ ev ∈ (uploadMethod source writeRes inc retryMax zMax).1,
      ev.zStart = j) := by
  obtain ⟨E1, hEq, hMem, hCov⟩ :=
    uploadLoop_append_ok source writeRes inc retryMax zMax l1 (i :: l2) hpre
  cases hw : writeRes i retryMax with
  | none => exact absurd hw (hfail retryMax)
  | some e =>
    have hsl := slabLoop_all_fail (writeRes i) retryMax
      (mkEvent i (contigAdjust (source i (min (i + inc) zMax)))) hfail retryMax 0
      (by omega) (by omega)
    rw [hw] at hsl
    have hmid : uploadLoop source writeRes inc retryMax zMax (i :: l2) =
        (List.replicate (retryMax + 1)
          (mkEvent i (contigAdjust (source i (min (i + inc) zMax)))), some e) := by
      rw [uploadLoop_cons_fail source writeRes inc retryMax zMax i l2 e
        (by rw [hsl])]
      rw [hsl]
      simp
    have hAll : uploadMethod source writeRes inc retryMax zMax =
        (E1 ++ List.replicate (retryMax + 1)
          (mkEvent i (contigAdjust (source i (min (i + inc) zMax)))), some e) := by
      unfold uploadMethod
      rw [hplan, hEq, hmid]
    refine ⟨?_, ?_, ?_, ?_⟩
    · rw [hAll]
    · rw [hAll]
      simp only [List.countP_append]
      have hE1 : E1.countP (fun ev => ev.zStart == i) = 0 := by
        rw [List.countP_eq_zero]
        intro ev hev
        have hz := hMem ev hev
        simp only [beq_iff_eq]
        intro hcon
        rw [hcon] at hz
        exact hi1 hz
      have hrep : (List.replicate (retryMax + 1)
          (mkEvent i (contigAdjust (source i (min (i + inc) zMax))))).countP
          (fun ev => ev.zStart == i) = retryMax + 1 := by
        have hall : ∀ ev ∈ List.replicate (retryMax + 1)
            (mkEvent i (contigAdjust (source i (min (i + inc) zMax)))),
            (fun ev : WriteEvent => ev.zStart == i) ev = true := by
          intro ev hev
          rw [List.eq_of_mem_replicate hev]
          simp [mkEvent_zStart]
        have hlen := List.countP_eq_length.mpr hall
        rw [hlen, List.length_replicate]
      rw [hE1, hrep]
      omega
    · intro j hj
      rw [hAll]
      simp only [List.countP_append]
      have hE1 : E1.countP (fun ev => ev.zStart == j) = 0 := by
        rw [List.countP_eq_zero]
        intro ev hev
        have hz := hMem ev hev
        simp only [beq_iff_eq]
        intro hcon
        rw [hcon] at hz
        exact (hl2 j hj).1 hz
      have hrep : (List.replicate (retryMax + 1)
          (mkEvent i (contigAdjust (source i (min (i + inc) zMax))))).countP
          (fun ev => ev.zStart == j) = 0 := by
        rw [List.countP_eq_zero]
        intro ev hev
        rw [List.eq_of_mem_replicate hev]
        simp only [mkEvent_zStart, beq_iff_eq]
        intro hcon
        exact (hl2 j hj).2 hcon.symm
      rw [hE1, hrep]
    · intro j hj
      obtain ⟨ev, hev, hz⟩ := hCov j hj
      refine ⟨ev, ?_, hz⟩
      rw [hAll]
      exact List.mem_append_left _ hev

/-- C3 (witness): plan [0, 2, 4] with slab 0 succeeding immediately
and slab 2 failing on every attempt with retryMax = 1: the upload
surfaces the last error of slab 2, wrote it exactly twice, and never
attempted slab 4. -/
theorem c3_retry_exhaustion_witness :
    (uploadMethod srcFix wrC3 2 1 6).2 = wrC3 2 1 ∧
    ((uploadMethod srcFix wrC3 2 1 6).1.countP (fun ev => ev.zStart == 2)) = 2 ∧
    ((uploadMethod srcFix wrC3 2 1 6).1.countP (fun ev => ev.zStart == 4)) = 0 := by
  have h := c3_retry_exhaustion srcFix wrC3 2 1 6 [0] [4] 2 (by decide)
    (by
      intro j hj
      have hj0 : j = 0 := by simpa using hj
      rw [hj0]
      exact ⟨0, by omega, rfl, fun a ha => absurd ha (Nat.not_lt_zero a)⟩)
    (by
      intro a hcon
      simp [wrC3] at hcon)
    (by decide)
    (by
      intro j hj
      have hj4 : j = 4 := by simpa using hj
      rw [hj4]
      exact ⟨by decide, by decide⟩)
  exact ⟨h.1, h.2.1, h.2.2.1 4 (by decide)⟩

/-- C4: for every positive depth and increment the transfer plan's
slabs partition `[0, depth)` exactly (their concatenated ranges are
literally `range depth`), are contiguous (each slab ends where the
next starts), ascending in zStart, each slab is
`[zStart, min(zStart + increment, depth))`, the last slab ends at
`depth` and has length `depth % increment` (or `increment` when it
divides evenly) — and the upload loop writes each slab to the remote
address `[zStart, zStart + actual slab depth)`, never using the
configured increment beyond the volume bound: with an all-success
writer the written (zStart, zEnd) pairs are exactly the plan.  In
particular depth = 40, increment = 16 gives slabs at 0 (len 16),
16 (len 16), 32 (len 8). -/
theorem c4_slab_partition (depth hh ww inc retryMax : Nat) (buf : List Nat)
    (dt : String) (hd : 0 < depth) (hinc : 0 < inc) :
    ((slabList depth inc).flatMap (fun p => List.range' p.1 (p.2 - p.1)) =
      List.range depth) ∧
    List.Chain' (fun p q : Nat × Nat => p.2 = q.1) (slabList depth inc) ∧
    List.Chain' (fun p q : Nat × Nat => p.1 < q.1) (slabList depth inc) ∧
    (slabList depth inc).head?.map Prod.fst = some 0 ∧
    (slabList depth inc).getLast?.map Prod.snd = some depth ∧
    (∀ p ∈ slabList depth inc, p.2 = min (p.1 + inc) depth ∧ p.1 < p.2) ∧
    ((slabList depth inc).getLast?.map (fun p => p.2 - p.1) =
      some (if depth % inc = 0 then inc else depth % inc)) ∧
    ((uploadMethod (fun i z => arraySlice (mkNDArray [depth, hh, ww] buf dt) i z)
        (fun _ _ => none) inc retryMax depth).1.map (fun ev => (ev.zStart, ev.zEnd)) =
      slabList depth inc) ∧
    slabList 40 16 = [(0, 16), (16, 32), (32, 40)] := by
  obtain ⟨lst, hl, hl1, hl2, hl3⟩ :=
    rangeStepGo_last depth inc hinc (depth - 0) 0 hd (le_refl _)
  refine ⟨?_, ?_, ?_, ?_, ?_, ?_, ?_, ?_, by decide⟩
  · rw [List.range_eq_range']
    exact rangeStepGo_cover depth inc hinc (depth - 0) 0 (le_refl _)
  · exact (rangeStepGo_chain depth inc hinc (depth - 0) 0).imp (fun a b h => h.1)
  · exact (rangeStepGo_chain depth inc hinc (depth - 0) 0).imp (fun a b h => h.2)
  · show ((rangeStep depth inc 0).map _).head?.map Prod.fst = some 0
    rw [rangeStep_cons depth inc 0 hd hinc]
    rfl
  · show ((rangeStep depth inc 0).map
      (fun i => (i, min (i + inc) depth))).getLast?.map Prod.snd = some depth
    rw [List.getLast?_map]
    rw [show rangeStep depth inc 0 = rangeStepGo depth inc (depth - 0) 0 from rfl, hl]
    simp only [Option.map_some']
    show some (min (lst + inc) depth) = some depth
    congr 1
    omega
  · intro p hp
    obtain ⟨x, hx, hfx⟩ := List.mem_map.mp hp
    obtain ⟨_, hxd⟩ := rangeStep_mem depth inc 0 x hx
    constructor
    · rw [← hfx]
    · rw [← hfx]
      simp only
      omega
  · show ((rangeStep depth inc 0).map
      (fun i => (i, min (i + inc) depth))).getLast?.map (fun p => p.2 - p.1) =
      some (if depth % inc = 0 then inc else depth % inc)
    rw [List.getLast?_map]
    rw [show rangeStep depth inc 0 = rangeStepGo depth inc (depth - 0) 0 from rfl, hl]
    simp only [Option.map_some']
    show some (min (lst + inc) depth - lst) =
      some (if depth % inc = 0 then inc else depth % inc)
    have hz : depth - 0 = depth := Nat.sub_zero depth
    rw [hz] at hl3
    rw [← hl3]
    congr 1
    omega
  · have hev := uploadLoop_allok_events depth hh ww inc retryMax buf dt hinc
      (depth - 0) 0
    exact hev.1

/-- C4 (witness): the concrete scenario. -/
theorem c4_slab_partition_witness :
    ((slabList 40 16).flatMap (fun p => List.range' p.1 (p.2 - p.1)) =
      List.range 40) ∧
    slabList 40 16 = [(0, 16), (16, 32), (32, 40)] :=
  ⟨(c4_slab_partition 40 1 1 16 3 [] "uint8" (by decide) (by decide)).1,
   (c4_slab_partition 40 1 1 16 3 [] "uint8" (by decide)
     (by decide)).2.2.2.2.2.2.2.2⟩
